import Mathlib

/-!
Verification of the Dining-Out RSVP application (Flask/SQLAlchemy) against its
natural-language specification.

Shallow embedding conventions:
* A Python `str` is embedded as a `List Nat` of Unicode codepoints
  (`pyStr` converts a Lean string literal to this form).
* Database tables (`rsvps`, `guests`, `seating_preferences`) are lists of
  records inside a `DB` structure; SQLAlchemy's auto-increment primary keys are
  modelled with explicit `next…Id` counters.
* `RSVP.query.filter_by(...).first()` is `List.find?`; `db.session.delete` is a
  filter on the primary key; in-place attribute mutation followed by
  `db.session.commit()` is a `List.map` replacing the matching row.
* The unique constraints declared in `models.py` (`email`, `reservation_id`)
  are modelled in the commit of an INSERT/UPDATE: a violating commit leaves the
  store unchanged and surfaces an integrity error.
* Cookie-based identity (`get_rsvp_from_cookie`) resolves an opaque token to at
  most one row; it is modelled as an `Option Nat` carrying the numeric id the
  token maps to, looked up in the store (no match models a stale/absent token).
* `random.choices(string.digits, k=4)` is modelled by an arbitrary seed
  parameter expanded to four decimal digits.
-/

namespace DiningRSVP

/-- Embed a Lean string literal as a Python string: its list of codepoints. -/
def pyStr (s : String) : List Nat := s.data.map Char.toNat

/-- ASCII lowercase letter test on a codepoint. -/
def isLowerCp (c : Nat) : Bool := 97 ≤ c && c ≤ 122

/-- ASCII uppercase letter test on a codepoint. -/
def isUpperCp (c : Nat) : Bool := 65 ≤ c && c ≤ 90

/-- ASCII letter test on a codepoint. -/
def isAlphaCp (c : Nat) : Bool := isUpperCp c || isLowerCp c

/-- ASCII decimal digit test on a codepoint. -/
def isDigitCp (c : Nat) : Bool := 48 ≤ c && c ≤ 57

/-- Python `str.isspace` on a single ASCII codepoint (the whitespace classes
`str.split`/`str.strip` break on). -/
def isSpaceCp (c : Nat) : Bool :=
  c == 32 || c == 9 || c == 10 || c == 13 || c == 11 || c == 12

/-- Python `str.upper` on one codepoint (ASCII range). -/
def upperCp (c : Nat) : Nat := if isLowerCp c then c - 32 else c

/-- Python `str.lower` on one codepoint (ASCII range). -/
def lowerCp (c : Nat) : Nat := if isUpperCp c then c + 32 else c

/-- Python `str.upper` (ASCII range). -/
def pyUpper (s : List Nat) : List Nat := s.map upperCp

/-- Python `str.lower` (ASCII range). -/
def pyLower (s : List Nat) : List Nat := s.map lowerCp

/-- Python `str.strip()`: drop leading and trailing whitespace. -/
def pyStrip (s : List Nat) : List Nat :=
  ((s.dropWhile isSpaceCp).reverse.dropWhile isSpaceCp).reverse

/-- Auxiliary for `pySplit`: scans the string, accumulating the current
(non-whitespace) word in reverse. -/
def pySplitAux : List Nat → List Nat → List (List Nat)
  | [], acc => if acc.isEmpty then [] else [acc.reverse]
  | c :: cs, acc =>
    if isSpaceCp c then
      if acc.isEmpty then pySplitAux cs [] else acc.reverse :: pySplitAux cs []
    else
      pySplitAux cs (c :: acc)

/-- Python `str.split()` with no argument: split on whitespace runs, never
producing empty words. -/
def pySplit (s : List Nat) : List (List Nat) := pySplitAux s []

/-- The four random digits of `random.choices(string.digits, k=4)`, modelled
as a function of an arbitrary seed. -/
def digitsOfSeed (seed : Nat) : List Nat :=
  [48 + seed / 1000 % 10, 48 + seed / 100 % 10, 48 + seed / 10 % 10, 48 + seed % 10]

/-- `models.generate_reservation_id`: two uppercased initials from the name
(falling back to the first two characters of a single word, then to "XX")
followed by four random digits. -/
def generate_reservation_id (name : List Nat) (seed : Nat) : List Nat :=
  let parts := pySplit (pyStrip name)
  let initials : List Nat :=
    match parts with
    | p1 :: p2 :: _ => pyUpper [p1.headD 0, p2.headD 0]
    | [p1] => if 2 ≤ p1.length then pyUpper (p1.take 2) else pyStr r"XX"
    | [] => pyStr r"XX"
  initials ++ digitsOfSeed seed

/-- Row of the `rsvps` table (`models.RSVP`); timestamps and the opaque
`rsvp_token` column are not modelled (the token is abstracted into the
cookie-resolution parameter of each operation). -/
structure RSVPRec where
  id : Nat
  reservation_id : List Nat
  name : List Nat
  email : List Nat
  num_guests : Nat
  payment_status : List Nat
deriving DecidableEq, Repr

/-- Row of the `guests` table (`models.Guest`); timestamps not modelled. -/
structure GuestRec where
  id : Nat
  rsvp_id : Nat
  guest_number : Nat
  first_name : List Nat
  last_name : List Nat
  title_rank : List Nat
  meal_preference : List Nat
  allergy_notes : List Nat
  fun_fact : List Nat
deriving DecidableEq, Repr

/-- Row of the seating-preference table: the owning reservation id and the
ranked ids encoded as a delimited string (codepoints). -/
structure PrefRec where
  rsvp_id : Nat
  ranked_ids : List Nat
deriving DecidableEq, Repr

/-- The persistent store: the three tables plus auto-increment counters. -/
structure DB where
  rsvps : List RSVPRec
  guests : List GuestRec
  prefs : List PrefRec
  nextRsvpId : Nat
  nextGuestId : Nat
deriving DecidableEq, Repr

/-- `RSVP.query.get(i)` / `RSVP.query.filter_by(id=i).first()`. -/
def findRsvp (db : DB) (i : Nat) : Option RSVPRec :=
  db.rsvps.find? (fun r => r.id == i)

/-- `RSVP.query.filter_by(email=e).first()`. -/
def findByEmail (db : DB) (e : List Nat) : Option RSVPRec :=
  db.rsvps.find? (fun r => r.email == e)

/-- Commit of an in-place mutation of an `RSVP` row: replace the row with the
matching primary key. -/
def updateRsvp (rs : List RSVPRec) (r' : RSVPRec) : List RSVPRec :=
  rs.map (fun r => if r.id == r'.id then r' else r)

/-- `Guest.query.filter_by(rsvp_id=r, guest_number=n).first()`. -/
def findSlot (gs : List GuestRec) (r n : Nat) : Option GuestRec :=
  gs.find? (fun g => g.rsvp_id == r && g.guest_number == n)

/-- `db.session.delete(guest)`: remove the row with the given primary key. -/
def eraseGuestId (gs : List GuestRec) (i : Nat) : List GuestRec :=
  gs.filter (fun g => !(g.id == i))

/-- Commit of `guest_2.guest_number = 1`: renumber the row with primary key
`i` to slot 1. -/
def renumberTo1 (gs : List GuestRec) (i : Nat) : List GuestRec :=
  gs.map (fun g => if g.id == i then { g with guest_number := 1 } else g)

/-- The guest rows owned by one reservation. -/
def guestsOf (gs : List GuestRec) (r : Nat) : List GuestRec :=
  gs.filter (fun g => g.rsvp_id == r)

/-- Slot `n` of reservation `r` is occupied. -/
def slotOccupied (gs : List GuestRec) (r n : Nat) : Prop :=
  ∃ g ∈ gs, g.rsvp_id = r ∧ g.guest_number = n

instance (gs : List GuestRec) (r n : Nat) : Decidable (slotOccupied gs r n) := by
  unfold slotOccupied; infer_instance

/-- The default of the `payment_status` column. -/
def notPaid : List Nat := pyStr r"not paid"

/-- The status forced when the roster grows after a payment was recorded. -/
def guestsChangedNotPaid : List Nat := pyStr r"guests changed - not paid"

/-- `app.remove_guest_by_number` (route `/remove-guest/<int:guest_number>`,
also reached as `/remove-guest-2`): resolve the reservation from the cookie,
reject slot numbers outside {1, 2}, delete the guest in the requested slot if
present, renumber the slot-2 guest to slot 1 if slot 1 was requested, and force
`num_guests` to 1. -/
def removeGuestByNumber (db : DB) (cookieId : Option Nat) (n : Nat) : DB :=
  match cookieId.bind (findRsvp db) with
  | none => db
  | some r =>
    if ¬(n = 1 ∨ n = 2) then db
    else
      let gs1 :=
        match findSlot db.guests r.id n with
        | some g => eraseGuestId db.guests g.id
        | none => db.guests
      let gs2 :=
        if n = 1 then
          match findSlot gs1 r.id 2 with
          | some g2 => renumberTo1 gs1 g2.id
          | none => gs1
        else gs1
      { db with guests := gs2,
                rsvps := updateRsvp db.rsvps { r with num_guests := 1 } }

/-- `app.remove_guest` (route `/remove-guest`, the guest-count-reduction
follow-up): the reservation id comes from the session key
`rsvp_id_for_removal`, the guest id from the posted form; the guest is deleted
only if it belongs to the reservation, with the same slot-1 renumbering;
`num_guests` is NOT touched here (it was already updated by `confirm_update`). -/
def removeGuestSession (db : DB) (rsvpId : Option Nat) (guestId : Option Nat) : DB :=
  match rsvpId.bind (findRsvp db) with
  | none => db
  | some r =>
    match guestId with
    | none => db
    | some gid =>
      match db.guests.find? (fun g => g.id == gid) with
      | none => db
      | some g =>
        if g.rsvp_id = r.id then
          let gs1 := eraseGuestId db.guests g.id
          let gs2 :=
            if g.guest_number = 1 then
              match findSlot gs1 r.id 2 with
              | some g2 => renumberTo1 gs1 g2.id
              | none => gs1
            else gs1
          { db with guests := gs2 }
        else db

/-- The fields of `forms.GuestInfoForm` relevant to the store. -/
structure GuestForm where
  g1_first_name : List Nat
  g1_last_name : List Nat
  g1_title_rank : List Nat
  g1_allergy_notes : List Nat
  g1_fun_fact : List Nat
  g2_first_name : List Nat
  g2_last_name : List Nat
  g2_title_rank : List Nat
  g2_allergy_notes : List Nat
  g2_fun_fact : List Nat
deriving DecidableEq, Repr

/-- The fixed meal category written by `guest_info`. -/
def buffetDinner : List Nat := pyStr r"Buffet Dinner"

/-- Phase 1 of the `app.guest_info` save: `guest1` is created if absent
(`Guest(rsvp_id=.., guest_number=1)`) and its fields written from the form. -/
def upsertG1 (gs : List GuestRec) (next : Nat) (rid : Nat) (f : GuestForm) :
    List GuestRec × Nat :=
  match findSlot gs rid 1 with
  | some g1 =>
    (gs.map (fun g =>
      if g.id == g1.id then
        { g with first_name := f.g1_first_name, last_name := f.g1_last_name,
                 title_rank := f.g1_title_rank, meal_preference := buffetDinner,
                 allergy_notes := f.g1_allergy_notes, fun_fact := f.g1_fun_fact }
      else g), next)
  | none =>
    (gs ++ [{ id := next, rsvp_id := rid, guest_number := 1,
              first_name := f.g1_first_name, last_name := f.g1_last_name,
              title_rank := f.g1_title_rank, meal_preference := buffetDinner,
              allergy_notes := f.g1_allergy_notes, fun_fact := f.g1_fun_fact }],
     next + 1)

/-- Phase 2 of the `app.guest_info` save: the slot-2 guest is written only
when the reservation's `num_guests` is 2 and both guest-2 names are truthy. -/
def upsertG2 (gs : List GuestRec) (next : Nat) (rid numGuests : Nat) (f : GuestForm) :
    List GuestRec × Nat :=
  if numGuests = 2 ∧ f.g2_first_name ≠ [] ∧ f.g2_last_name ≠ [] then
    match findSlot gs rid 2 with
    | some g2 =>
      (gs.map (fun g =>
        if g.id == g2.id then
          { g with first_name := f.g2_first_name, last_name := f.g2_last_name,
                   title_rank := f.g2_title_rank, meal_preference := buffetDinner,
                   allergy_notes := f.g2_allergy_notes, fun_fact := f.g2_fun_fact }
        else g), next)
    | none =>
      (gs ++ [{ id := next, rsvp_id := rid, guest_number := 2,
                first_name := f.g2_first_name, last_name := f.g2_last_name,
                title_rank := f.g2_title_rank, meal_preference := buffetDinner,
                allergy_notes := f.g2_allergy_notes, fun_fact := f.g2_fun_fact }],
       next + 1)
  else (gs, next)

/-- The successful save path of `app.guest_info` (route `/guest-info`, POST
with a validated form): upsert the slot-1 guest unconditionally; upsert the
slot-2 guest only when `num_guests == 2` and both guest-2 names are non-empty
(Python truthiness of the form fields). `rid` is the already-resolved
reservation id (cookie, session or lookup). -/
def upsertGuestInfo (db : DB) (rid : Option Nat) (f : GuestForm) : DB :=
  match rid.bind (findRsvp db) with
  | none => db
  | some r =>
    let u1 := upsertG1 db.guests db.nextGuestId r.id f
    let u2 := upsertG2 u1.1 u1.2 r.id r.num_guests f
    { db with guests := u2.1, nextGuestId := u2.2 }

/-- `app.add_guest` (route `/add-guest`): resolve from the cookie; no-op when
the reservation already has two guests; otherwise raise `num_guests` to 2 and
force the payment status to `guests changed - not paid` when it is not the
default `not paid`. -/
def addGuest (db : DB) (cookieId : Option Nat) : DB :=
  match cookieId.bind (findRsvp db) with
  | none => db
  | some r =>
    if 2 ≤ r.num_guests then db
    else
      let status :=
        if r.payment_status ≠ notPaid then guestsChangedNotPaid else r.payment_status
      { db with rsvps := updateRsvp db.rsvps ({ r with num_guests := 2, payment_status := status }) }

/-- The reservation resolution of `app.mark_payment`: the cookie, falling back
to the session key `guest_info_rsvp_id`. -/
def resolvePayment (db : DB) (cookieId : Option Nat) (sessId : Option Nat) :
    Option RSVPRec :=
  match cookieId.bind (findRsvp db) with
  | some r => some r
  | none => sessId.bind (findRsvp db)

/-- `app.mark_payment` (route `/mark-payment`): when a reservation resolves
and the posted method is exactly `cash` or `Venmo`, set `payment_status` to
`pending - <method>` regardless of its current value; otherwise change
nothing. -/
def markPayment (db : DB) (cookieId : Option Nat) (sessId : Option Nat)
    (method : List Nat) : DB :=
  match resolvePayment db cookieId sessId with
  | some r =>
    if method = pyStr r"cash" ∨ method = pyStr r"Venmo" then
      { db with rsvps := updateRsvp db.rsvps ({ r with payment_status := pyStr r"pending - " ++ method }) }
    else db
  | none => db

/-- The reservation-resolution prefix of `app.guest_info` (route
`/guest-info`): cookie first; a parseable `rsvp_id` query parameter then
overwrites the cookie resolution with `RSVP.query.get` (possibly to nothing)
and, on success, stores the id in the session; finally the session id is
consulted when still unresolved, the session key being popped when stale.
Returns the resolved reservation and the new session value. -/
def guestInfoResolve (db : DB) (cookieId : Option Nat) (param : Option Nat)
    (sess : Option Nat) : Option RSVPRec × Option Nat :=
  let rsvp0 := cookieId.bind (findRsvp db)
  let step1 : Option RSVPRec × Option Nat :=
    match param with
    | some i =>
      match findRsvp db i with
      | some r => (some r, some r.id)
      | none => (none, sess)
    | none => (rsvp0, sess)
  match step1.1 with
  | some r => (some r, step1.2)
  | none =>
    match step1.2 with
    | some j =>
      match findRsvp db j with
      | some r => (some r, step1.2)
      | none => (none, none)
    | none => (none, step1.2)

/-- Well-formedness of the guest table (with the auto-increment counter):
no duplicate rows, unique primary keys, slot numbers drawn from {1, 2}, at most
one guest per (reservation, slot) pair, slot 2 occupied only when slot 1 is,
and all keys below the counter. -/
structure RosterOk (gs : List GuestRec) (next : Nat) : Prop where
  nodup : gs.Nodup
  idU : ∀ a ∈ gs, ∀ b ∈ gs, a.id = b.id → a = b
  slots : ∀ g ∈ gs, g.guest_number = 1 ∨ g.guest_number = 2
  pairU : ∀ a ∈ gs, ∀ b ∈ gs, a.rsvp_id = b.rsvp_id → a.guest_number = b.guest_number → a = b
  occ : ∀ rid, slotOccupied gs rid 2 → slotOccupied gs rid 1
  fresh : ∀ g ∈ gs, g.id < next

/-- The guest-table invariant of a store state. -/
def GuestInv (db : DB) : Prop := RosterOk db.guests db.nextGuestId

theorem findSlot_eq_some {gs : List GuestRec} {r n : Nat} {g : GuestRec}
    (h : findSlot gs r n = some g) : g ∈ gs ∧ g.rsvp_id = r ∧ g.guest_number = n := by
  have hm := List.mem_of_find?_eq_some h
  have hp := List.find?_some h
  simp only [Bool.and_eq_true, beq_iff_eq] at hp
  exact ⟨hm, hp.1, hp.2⟩

theorem findSlot_eq_none {gs : List GuestRec} {r n : Nat} :
    findSlot gs r n = none ↔ ¬ slotOccupied gs r n := by
  simp [findSlot, List.find?_eq_none, slotOccupied]

theorem mem_eraseGuestId {gs : List GuestRec} {i : Nat} {a : GuestRec} :
    a ∈ eraseGuestId gs i ↔ a ∈ gs ∧ a.id ≠ i := by
  simp [eraseGuestId, List.mem_filter]

theorem renumFun_id (g : GuestRec) (i : Nat) :
    (if g.id == i then { g with guest_number := 1 } else g).id = g.id := by
  split <;> rfl

theorem renumFun_rsvp (g : GuestRec) (i : Nat) :
    (if g.id == i then { g with guest_number := 1 } else g).rsvp_id = g.rsvp_id := by
  split <;> rfl

theorem renumFun_num (g : GuestRec) (i : Nat) :
    (if g.id == i then { g with guest_number := 1 } else g).guest_number
      = if g.id = i then 1 else g.guest_number := by
  by_cases h : g.id = i <;> simp [h]

/-- Mapping the rows through a function that fixes key, owner and slot
preserves the table invariant. -/
theorem rosterOk_fieldMap {gs : List GuestRec} {next : Nat} (ok : RosterOk gs next)
    (f : GuestRec → GuestRec) (hid : ∀ g, (f g).id = g.id)
    (hr : ∀ g, (f g).rsvp_id = g.rsvp_id) (hn : ∀ g, (f g).guest_number = g.guest_number) :
    RosterOk (gs.map f) next := by
  refine ⟨?_, ?_, ?_, ?_, ?_, ?_⟩
  · exact ok.nodup.map_on (fun a ha b hb hfe => ok.idU a ha b hb (by rw [← hid a, ← hid b, hfe]))
  · rintro a ha b hb hab
    rcases List.mem_map.1 ha with ⟨a0, ha0, rfl⟩
    rcases List.mem_map.1 hb with ⟨b0, hb0, rfl⟩
    rw [hid, hid] at hab
    rw [ok.idU a0 ha0 b0 hb0 hab]
  · rintro g hg
    rcases List.mem_map.1 hg with ⟨g0, hg0, rfl⟩
    rw [hn]; exact ok.slots g0 hg0
  · rintro a ha b hb hrr hnn
    rcases List.mem_map.1 ha with ⟨a0, ha0, rfl⟩
    rcases List.mem_map.1 hb with ⟨b0, hb0, rfl⟩
    rw [hr, hr] at hrr; rw [hn, hn] at hnn
    rw [ok.pairU a0 ha0 b0 hb0 hrr hnn]
  · rintro rid ⟨x, hx, hxr, hxn⟩
    rcases List.mem_map.1 hx with ⟨x0, hx0, rfl⟩
    rw [hr] at hxr; rw [hn] at hxn
    rcases ok.occ rid ⟨x0, hx0, hxr, hxn⟩ with ⟨y, hy, hyr, hyn⟩
    exact ⟨f y, List.mem_map_of_mem f hy, by rw [hr]; exact hyr, by rw [hn]; exact hyn⟩
  · rintro g hg
    rcases List.mem_map.1 hg with ⟨g0, hg0, rfl⟩
    rw [hid]; exact ok.fresh g0 hg0

/-- Appending a fresh-keyed row preserves the table invariant, provided its
slot is legal, vacant, and (for slot 2) slot 1 is already occupied. -/
theorem rosterOk_append {gs : List GuestRec} {next : Nat} (ok : RosterOk gs next)
    (nw : GuestRec) (hidn : nw.id = next)
    (hslot : nw.guest_number = 1 ∨ nw.guest_number = 2)
    (hvac : ¬ slotOccupied gs nw.rsvp_id nw.guest_number)
    (h1 : nw.guest_number = 2 → slotOccupied gs nw.rsvp_id 1) :
    RosterOk (gs ++ [nw]) (next + 1) := by
  have hnotin : nw ∉ gs := fun hmem => absurd (ok.fresh nw hmem) (by omega)
  refine ⟨?_, ?_, ?_, ?_, ?_, ?_⟩
  · exact List.nodup_append.2 ⟨ok.nodup, List.nodup_singleton nw,
      fun a ha hb => by rw [List.mem_singleton.1 hb] at ha; exact hnotin ha⟩
  · rintro a ha b hb hab
    rcases List.mem_append.1 ha with ha | ha <;> rcases List.mem_append.1 hb with hb | hb
    · exact ok.idU a ha b hb hab
    · rw [List.mem_singleton.1 hb] at hab ⊢
      exact absurd (ok.fresh a ha) (by omega)
    · rw [List.mem_singleton.1 ha] at hab ⊢
      exact absurd (ok.fresh b hb) (by omega)
    · rw [List.mem_singleton.1 ha, List.mem_singleton.1 hb]
  · rintro g hg
    rcases List.mem_append.1 hg with hg | hg
    · exact ok.slots g hg
    · rw [List.mem_singleton.1 hg]; exact hslot
  · rintro a ha b hb hrr hnn
    rcases List.mem_append.1 ha with ha | ha <;> rcases List.mem_append.1 hb with hb | hb
    · exact ok.pairU a ha b hb hrr hnn
    · rw [List.mem_singleton.1 hb] at hrr hnn ⊢
      exact absurd ⟨a, ha, hrr, hnn⟩ hvac
    · rw [List.mem_singleton.1 ha] at hrr hnn ⊢
      exact absurd ⟨b, hb, hrr.symm, hnn.symm⟩ hvac
    · rw [List.mem_singleton.1 ha, List.mem_singleton.1 hb]
  · rintro rid ⟨x, hx, hxr, hxn⟩
    rcases List.mem_append.1 hx with hx | hx
    · rcases ok.occ rid ⟨x, hx, hxr, hxn⟩ with ⟨y, hy, hyr, hyn⟩
      exact ⟨y, List.mem_append_left _ hy, hyr, hyn⟩
    · rw [List.mem_singleton.1 hx] at hxr hxn
      rcases h1 hxn with ⟨y, hy, hyr, hyn⟩
      exact ⟨y, List.mem_append_left _ hy, by rw [← hxr]; exact hyr, hyn⟩
  · rintro g hg
    rcases List.mem_append.1 hg with hg | hg
    · have := ok.fresh g hg; omega
    · rw [List.mem_singleton.1 hg, hidn]; omega

/-- Deleting a slot-2 guest preserves the table invariant. -/
theorem rosterOk_erase2 {gs : List GuestRec} {next : Nat} (ok : RosterOk gs next)
    {g : GuestRec} (hg : g ∈ gs) (h2 : g.guest_number = 2) :
    RosterOk (eraseGuestId gs g.id) next := by
  refine ⟨ok.nodup.filter _, ?_, ?_, ?_, ?_, ?_⟩
  · rintro a ha b hb hab
    exact ok.idU a (mem_eraseGuestId.1 ha).1 b (mem_eraseGuestId.1 hb).1 hab
  · rintro x hx; exact ok.slots x (mem_eraseGuestId.1 hx).1
  · rintro a ha b hb hrr hnn
    exact ok.pairU a (mem_eraseGuestId.1 ha).1 b (mem_eraseGuestId.1 hb).1 hrr hnn
  · rintro rid ⟨x, hx, hxr, hxn⟩
    rcases mem_eraseGuestId.1 hx with ⟨hx, _⟩
    rcases ok.occ rid ⟨x, hx, hxr, hxn⟩ with ⟨y, hy, hyr, hyn⟩
    refine ⟨y, mem_eraseGuestId.2 ⟨hy, fun hyid => ?_⟩, hyr, hyn⟩
    rw [ok.idU y hy g hg hyid] at hyn
    rw [h2] at hyn; exact absurd hyn (by omega)
  · rintro x hx; exact ok.fresh x (mem_eraseGuestId.1 hx).1

/-- Deleting a slot-1 guest followed by the renumber-slot-2-to-slot-1 step (as
performed by both guest-removal routes) preserves the table invariant. -/
theorem rosterOk_slot1Removal {gs : List GuestRec} {next : Nat} (ok : RosterOk gs next)
    {g1 : GuestRec} (hg1 : g1 ∈ gs) (h1 : g1.guest_number = 1) :
    RosterOk (match findSlot (eraseGuestId gs g1.id) g1.rsvp_id 2 with
              | some g2 => renumberTo1 (eraseGuestId gs g1.id) g2.id
              | none => eraseGuestId gs g1.id) next := by
  have idUE : ∀ a ∈ eraseGuestId gs g1.id, ∀ b ∈ eraseGuestId gs g1.id, a.id = b.id → a = b :=
    fun a ha b hb => ok.idU a (mem_eraseGuestId.1 ha).1 b (mem_eraseGuestId.1 hb).1
  have hnot1 : ¬ slotOccupied (eraseGuestId gs g1.id) g1.rsvp_id 1 := by
    rintro ⟨a, ha, har, han⟩
    rcases mem_eraseGuestId.1 ha with ⟨hags, haid⟩
    exact haid (congrArg GuestRec.id (ok.pairU a hags g1 hg1 har (han.trans h1.symm)))
  cases hf : findSlot (eraseGuestId gs g1.id) g1.rsvp_id 2 with
  | none =>
    have hnot2 := findSlot_eq_none.1 hf
    refine ⟨ok.nodup.filter _, idUE, ?_, ?_, ?_, ?_⟩
    · rintro x hx; exact ok.slots x (mem_eraseGuestId.1 hx).1
    · rintro a ha b hb hrr hnn
      exact ok.pairU a (mem_eraseGuestId.1 ha).1 b (mem_eraseGuestId.1 hb).1 hrr hnn
    · rintro rid ⟨x, hx, hxr, hxn⟩
      by_cases hrid : rid = g1.rsvp_id
      · exact absurd ⟨x, hx, by rw [← hrid]; exact hxr, hxn⟩ hnot2
      · rcases ok.occ rid ⟨x, (mem_eraseGuestId.1 hx).1, hxr, hxn⟩ with ⟨y, hy, hyr, hyn⟩
        refine ⟨y, mem_eraseGuestId.2 ⟨hy, fun hid => hrid ?_⟩, hyr, hyn⟩
        rw [← hyr, ok.idU y hy g1 hg1 hid]
    · rintro x hx; exact ok.fresh x (mem_eraseGuestId.1 hx).1
  | some g2 =>
    obtain ⟨hg2E, hg2r, hg2n⟩ := findSlot_eq_some hf
    have hg2gs : g2 ∈ gs := (mem_eraseGuestId.1 hg2E).1
    have memE : ∀ {a : GuestRec}, a ∈ eraseGuestId gs g1.id → a ∈ gs :=
      fun ha => (mem_eraseGuestId.1 ha).1
    refine ⟨?_, ?_, ?_, ?_, ?_, ?_⟩
    · exact (ok.nodup.filter _).map_on (fun a ha b hb hfe =>
        idUE a ha b hb (by rw [← renumFun_id a g2.id, ← renumFun_id b g2.id, hfe]))
    · rintro a ha b hb hab
      rcases List.mem_map.1 ha with ⟨a0, ha0, rfl⟩
      rcases List.mem_map.1 hb with ⟨b0, hb0, rfl⟩
      rw [renumFun_id, renumFun_id] at hab
      rw [idUE a0 ha0 b0 hb0 hab]
    · rintro g hg
      rcases List.mem_map.1 hg with ⟨g0, hg0, rfl⟩
      rw [renumFun_num]
      split
      · exact Or.inl rfl
      · exact ok.slots g0 (memE hg0)
    · rintro a ha b hb hrr hnn
      rcases List.mem_map.1 ha with ⟨a0, ha0, rfl⟩
      rcases List.mem_map.1 hb with ⟨b0, hb0, rfl⟩
      rw [renumFun_rsvp, renumFun_rsvp] at hrr
      rw [renumFun_num, renumFun_num] at hnn
      by_cases ha2 : a0.id = g2.id <;> by_cases hb2 : b0.id = g2.id
      · rw [idUE a0 ha0 b0 hb0 (ha2.trans hb2.symm)]
      · exfalso
        have ha0g2 : a0 = g2 := idUE a0 ha0 g2 hg2E ha2
        rw [if_pos ha2, if_neg hb2] at hnn
        exact hnot1 ⟨b0, hb0, by rw [← hrr, ha0g2, hg2r], hnn.symm⟩
      · exfalso
        have hb0g2 : b0 = g2 := idUE b0 hb0 g2 hg2E hb2
        rw [if_neg ha2, if_pos hb2] at hnn
        exact hnot1 ⟨a0, ha0, by rw [hrr, hb0g2, hg2r], hnn⟩
      · rw [if_neg ha2, if_neg hb2] at hnn
        rw [idUE a0 ha0 b0 hb0 (congrArg GuestRec.id (ok.pairU a0 (memE ha0) b0 (memE hb0) hrr hnn))]
    · rintro rid ⟨x, hx, hxr, hxn⟩
      rcases List.mem_map.1 hx with ⟨x0, hx0, rfl⟩
      rw [renumFun_rsvp] at hxr
      rw [renumFun_num] at hxn
      have hx0id : ¬ x0.id = g2.id := by
        intro hc; rw [if_pos hc] at hxn; omega
      rw [if_neg hx0id] at hxn
      by_cases hrid : rid = g1.rsvp_id
      · refine ⟨{ g2 with guest_number := 1 },
          List.mem_map.2 ⟨g2, hg2E, by simp⟩, ?_, rfl⟩
        show g2.rsvp_id = rid
        rw [hg2r, hrid]
      · rcases ok.occ rid ⟨x0, memE hx0, hxr, hxn⟩ with ⟨y, hy, hyr, hyn⟩
        have hyE : y ∈ eraseGuestId gs g1.id := by
          refine mem_eraseGuestId.2 ⟨hy, fun hid => hrid ?_⟩
          rw [← hyr, ok.idU y hy g1 hg1 hid]
        refine ⟨_, List.mem_map.2 ⟨y, hyE, rfl⟩, ?_, ?_⟩
        · rw [renumFun_rsvp]; exact hyr
        · rw [renumFun_num]
          split
          · rfl
          · exact hyn
    · rintro g hg
      rcases List.mem_map.1 hg with ⟨g0, hg0, rfl⟩
      rw [renumFun_id]; exact ok.fresh g0 (memE hg0)

theorem guestInv_removeGuestByNumber (db : DB) (cid : Option Nat) (n : Nat)
    (h : GuestInv db) : GuestInv (removeGuestByNumber db cid n) := by
  unfold removeGuestByNumber
  cases hcb : cid.bind (findRsvp db) with
  | none => exact h
  | some r =>
    dsimp only
    by_cases hn : n = 1 ∨ n = 2
    · rw [if_neg (not_not_intro hn)]
      rcases hn with rfl | rfl
      · cases hf1 : findSlot db.guests r.id 1 with
        | some g1 =>
          dsimp only
          obtain ⟨hg1m, hg1r, hg1n⟩ := findSlot_eq_some hf1
          have key := rosterOk_slot1Removal h hg1m hg1n
          rw [hg1r] at key
          simpa using key
        | none =>
          dsimp only
          have hnocc1 : ¬ slotOccupied db.guests r.id 1 := findSlot_eq_none.1 hf1
          have hf2 : findSlot db.guests r.id 2 = none :=
            findSlot_eq_none.2 (fun h2 => hnocc1 (h.occ r.id h2))
          simp only [hf2, if_pos rfl]
          exact h
      · cases hf2 : findSlot db.guests r.id 2 with
        | some g =>
          dsimp only
          obtain ⟨hgm, _, hgn⟩ := findSlot_eq_some hf2
          simp only [if_neg (by omega : ¬ (2 : Nat) = 1)]
          exact rosterOk_erase2 h hgm hgn
        | none =>
          dsimp only
          simp only [if_neg (by omega : ¬ (2 : Nat) = 1)]
          exact h
    · rw [if_pos hn]; exact h

theorem guestInv_removeGuestSession (db : DB) (rid gid : Option Nat)
    (h : GuestInv db) : GuestInv (removeGuestSession db rid gid) := by
  unfold removeGuestSession
  cases hcb : rid.bind (findRsvp db) with
  | none => exact h
  | some r =>
    dsimp only
    cases gid with
    | none => exact h
    | some g0 =>
      dsimp only
      cases hfg : db.guests.find? (fun g => g.id == g0) with
      | none => exact h
      | some g =>
        dsimp only
        have hgm := List.mem_of_find?_eq_some hfg
        by_cases hgr : g.rsvp_id = r.id
        · rw [if_pos hgr]
          by_cases hg1 : g.guest_number = 1
          · rw [if_pos hg1]
            have key := rosterOk_slot1Removal h hgm hg1
            rw [hgr] at key
            simpa using key
          · rw [if_neg hg1]
            have hg2 : g.guest_number = 2 := (h.slots g hgm).resolve_left hg1
            exact rosterOk_erase2 h hgm hg2
        · rw [if_neg hgr]; exact h

theorem rosterOk_upsertG1 {gs : List GuestRec} {next : Nat} (ok : RosterOk gs next)
    (rid : Nat) (f : GuestForm) :
    RosterOk (upsertG1 gs next rid f).1 (upsertG1 gs next rid f).2
      ∧ slotOccupied (upsertG1 gs next rid f).1 rid 1 := by
  unfold upsertG1
  cases hf1 : findSlot gs rid 1 with
  | some g1 =>
    obtain ⟨hg1m, hg1r, hg1n⟩ := findSlot_eq_some hf1
    constructor
    · exact rosterOk_fieldMap ok _ (fun g => by split <;> rfl)
        (fun g => by split <;> rfl) (fun g => by split <;> rfl)
    · refine ⟨_, List.mem_map.2 ⟨g1, hg1m, rfl⟩, ?_, ?_⟩ <;>
        simp [hg1r, hg1n]
  | none =>
    constructor
    · exact rosterOk_append ok _ rfl (Or.inl rfl) (findSlot_eq_none.1 hf1) (by intro hc; cases hc)
    · exact ⟨_, List.mem_append_right _ (List.mem_singleton_self _), rfl, rfl⟩

theorem rosterOk_upsertG2 {gs : List GuestRec} {next : Nat} (ok : RosterOk gs next)
    (rid numGuests : Nat) (f : GuestForm) (hocc1 : slotOccupied gs rid 1) :
    RosterOk (upsertG2 gs next rid numGuests f).1 (upsertG2 gs next rid numGuests f).2 := by
  unfold upsertG2
  split
  · cases hf2 : findSlot gs rid 2 with
    | some g2 =>
      exact rosterOk_fieldMap ok _ (fun g => by split <;> rfl)
        (fun g => by split <;> rfl) (fun g => by split <;> rfl)
    | none =>
      exact rosterOk_append ok _ rfl (Or.inr rfl) (findSlot_eq_none.1 hf2) (fun _ => hocc1)
  · exact ok

theorem guestInv_upsertGuestInfo (db : DB) (rid : Option Nat) (f : GuestForm)
    (h : GuestInv db) : GuestInv (upsertGuestInfo db rid f) := by
  unfold upsertGuestInfo
  cases hcb : rid.bind (findRsvp db) with
  | none => exact h
  | some r =>
    dsimp only
    obtain ⟨ok1, hocc1⟩ := rosterOk_upsertG1 h r.id f
    exact rosterOk_upsertG2 ok1 r.id r.num_guests f hocc1

theorem guestInv_addGuest (db : DB) (cid : Option Nat) (h : GuestInv db) :
    GuestInv (addGuest db cid) := by
  unfold addGuest
  cases hcb : cid.bind (findRsvp db) with
  | none => exact h
  | some r =>
    dsimp only
    split
    · exact h
    · exact h

/-- The guest-roster operations of the application, each carrying the
request-scoped identity inputs it reads. -/
inductive RosterOp where
  | upsert (rid : Option Nat) (f : GuestForm)
  | removeByNumber (cookieId : Option Nat) (n : Nat)
  | removeSession (rsvpId : Option Nat) (guestId : Option Nat)
  | add (cookieId : Option Nat)
deriving DecidableEq, Repr

/-- Execute one roster operation against the store. -/
def applyOp (db : DB) : RosterOp → DB
  | .upsert rid f => upsertGuestInfo db rid f
  | .removeByNumber cid n => removeGuestByNumber db cid n
  | .removeSession rid gid => removeGuestSession db rid gid
  | .add cid => addGuest db cid

/-- Execute a sequence of roster operations against the store. -/
def applyOps (db : DB) (ops : List RosterOp) : DB := ops.foldl applyOp db

theorem guestInv_applyOp (db : DB) (op : RosterOp) (h : GuestInv db) :
    GuestInv (applyOp db op) := by
  cases op with
  | upsert rid f => exact guestInv_upsertGuestInfo db rid f h
  | removeByNumber cid n => exact guestInv_removeGuestByNumber db cid n h
  | removeSession rid gid => exact guestInv_removeGuestSession db rid gid h
  | add cid => exact guestInv_addGuest db cid h

theorem guestInv_applyOps (db : DB) (ops : List RosterOp) (h : GuestInv db) :
    GuestInv (applyOps db ops) := by
  induction ops generalizing db with
  | nil => exact h
  | cons op ops ih => exact ih (applyOp db op) (guestInv_applyOp db op h)

/-- Modelled from the spec: the `SeatingPreference` model class is imported by
`app.py` but missing from `src/models.py`, so its encoding is taken from the
spec's words — "an ordered sequence of other Reservations' ids ... encoded as
a delimited string". `natRepr` is the decimal representation of one id. -/
def natRepr (n : Nat) : List Nat :=
  if n = 0 then [48] else ((Nat.digits 10 n).reverse.map (fun d => d + 48))

/-- Modelled from the spec: decimal parse of one delimited field. -/
def parseNatCp (s : List Nat) : Nat :=
  s.foldl (fun a c => a * 10 + (c - 48)) 0

/-- Modelled from the spec: `SeatingPreference.set_ranked_list` serialisation —
the ranked ids joined by a comma delimiter (codepoint 44). -/
def encodeRanked (ids : List Nat) : List Nat :=
  List.intercalate [44] (ids.map natRepr)

/-- Modelled from the spec: `SeatingPreference.get_ranked_list`
deserialisation — an empty stored string decodes to the empty ranking. -/
def decodeRanked (s : List Nat) : List Nat :=
  if s = [] then [] else (s.splitOn 44).map parseNatCp

/-- Modelled from the spec: `SeatingPreference.set_ranked_list` — whole-list
replace of the stored sequence. -/
def set_ranked_list (p : PrefRec) (ids : List Nat) : PrefRec :=
  { p with ranked_ids := encodeRanked ids }

/-- Modelled from the spec: `SeatingPreference.get_ranked_list`. -/
def get_ranked_list (p : PrefRec) : List Nat :=
  decodeRanked p.ranked_ids

/-- The POST path of `app.seating_preferences`: fetch the caller's
`SeatingPreference` row, create it if absent, and replace its ranked list
wholesale with the submitted ordered ids. -/
def savePreference (db : DB) (rid : Nat) (ids : List Nat) : DB :=
  match db.prefs.find? (fun p => p.rsvp_id == rid) with
  | some _ =>
    { db with prefs := db.prefs.map (fun q =>
        if q.rsvp_id == rid then set_ranked_list q ids else q) }
  | none =>
    { db with prefs := db.prefs ++ [set_ranked_list { rsvp_id := rid, ranked_ids := [] } ids] }

/-- The read path of `app.seating_preferences`:
`preference.get_ranked_list() if preference else []`. -/
def readPreference (db : DB) (rid : Nat) : List Nat :=
  match db.prefs.find? (fun p => p.rsvp_id == rid) with
  | some p => get_ranked_list p
  | none => []

theorem foldr_base10 (l : List Nat) :
    List.foldr (fun d x => x * 10 + d) (0 : Nat) l = Nat.ofDigits 10 l := by
  induction l with
  | nil => simp [Nat.ofDigits_nil]
  | cons d L ih => simp [Nat.ofDigits_cons, ih]; ring

theorem parseNatCp_natRepr (n : Nat) : parseNatCp (natRepr n) = n := by
  unfold parseNatCp natRepr
  by_cases h : n = 0
  · subst h; rfl
  · rw [if_neg h, List.foldl_map, List.foldl_reverse]
    have hfun : (fun (x : Nat) (y : Nat) => y * 10 + (x + 48 - 48)) = fun x y => y * 10 + x := by
      funext x y; omega
    rw [hfun, foldr_base10]
    exact Nat.ofDigits_digits 10 n

theorem natRepr_ne_nil (n : Nat) : natRepr n ≠ [] := by
  unfold natRepr
  by_cases h : n = 0
  · simp [h]
  · simp [h, Nat.digits_ne_nil_iff_ne_zero]

theorem comma_not_mem_natRepr (n : Nat) : 44 ∉ natRepr n := by
  unfold natRepr
  by_cases h : n = 0
  · simp [h]
  · rw [if_neg h]
    intro hc
    rcases List.mem_map.1 hc with ⟨d, _, hd⟩
    omega

theorem decodeRanked_encodeRanked (ids : List Nat) :
    decodeRanked (encodeRanked ids) = ids := by
  by_cases hids : ids = []
  · subst hids
    simp [encodeRanked, decodeRanked, List.intercalate]
  · have hps : ids.map natRepr ≠ [] := by simpa using hids
    have hx : ∀ l ∈ ids.map natRepr, 44 ∉ l := by
      rintro l hl
      rcases List.mem_map.1 hl with ⟨m, _, rfl⟩
      exact comma_not_mem_natRepr m
    have hsplit := List.splitOn_intercalate (ids.map natRepr) 44 hx hps
    have hne : encodeRanked ids ≠ [] := by
      intro h0
      have h1 : ([] : List Nat).splitOn 44 = ids.map natRepr := by
        rw [← h0]; exact hsplit
      rw [List.splitOn_nil] at h1
      rcases ids with _ | ⟨a, t⟩
      · exact hids rfl
      · have : natRepr a = [] := by
          have := congrArg List.head? h1
          simpa using this.symm
        exact natRepr_ne_nil a this
    unfold decodeRanked
    rw [if_neg hne]
    show ((encodeRanked ids).splitOn 44).map parseNatCp = ids
    unfold encodeRanked
    rw [hsplit, List.map_map]
    have : parseNatCp ∘ natRepr = id := by
      funext m; exact parseNatCp_natRepr m
    rw [this, List.map_id]

theorem find?_set_ranked (ps : List PrefRec) (rid : Nat) (ids : List Nat) (p0 : PrefRec)
    (h : ps.find? (fun p => p.rsvp_id == rid) = some p0) :
    (ps.map (fun q => if q.rsvp_id == rid then set_ranked_list q ids else q)).find?
      (fun p => p.rsvp_id == rid) = some (set_ranked_list p0 ids) := by
  induction ps with
  | nil => cases h
  | cons q ps ih =>
    by_cases hq : q.rsvp_id = rid
    · rw [List.find?_cons_of_pos _ (by simpa using hq)] at h
      cases h
      rw [List.map_cons, if_pos (by simpa using hq),
        List.find?_cons_of_pos _ (by simpa [set_ranked_list] using hq)]
    · rw [List.find?_cons_of_neg _ (by simpa using hq)] at h
      rw [List.map_cons, if_neg (by simpa using hq),
        List.find?_cons_of_neg _ (by simpa using hq)]
      exact ih h

/-- The validated fields of `forms.RSVPForm` (`num_guests` already converted
by `int(...)`). -/
structure RSVPForm where
  name : List Nat
  email : List Nat
  num_guests : Nat
deriving DecidableEq, Repr

/-- What `RSVPForm.validate_on_submit()` guarantees: a non-blank name
(`DataRequired`), a `@westpoint.edu` email (case-insensitively,
`validate_westpoint_email`), and a guest count from the select choices. -/
def validForm (f : RSVPForm) : Prop :=
  pyStrip f.name ≠ [] ∧ (f.num_guests = 1 ∨ f.num_guests = 2) ∧
    (pyStr r"@westpoint.edu") <:+ pyLower f.email

/-- The session payload written under `session['pending_rsvp']`. -/
structure PendingRSVP where
  name : List Nat
  email : List Nat
  num_guests : Nat
deriving DecidableEq, Repr

/-- How a validated POST to `/rsvp` terminates. -/
inductive RouteResult where
  | welcomeBack
  | deleted
  | modified
  | confirmUpdate
  | created
  | integrityError
deriving DecidableEq, Repr

/-- The user-initiated delete (`action == 'delete'`): `db.session.delete`
on an `RSVP` cascades (`cascade='all, delete-orphan'`) to its guests, and the
one-to-one seating-preference row goes with its owner. -/
def deleteRsvp (db : DB) (i : Nat) : DB :=
  { db with rsvps := db.rsvps.filter (fun r => !(r.id == i)),
            guests := db.guests.filter (fun g => !(g.rsvp_id == i)),
            prefs := db.prefs.filter (fun p => !(p.rsvp_id == i)) }

/-- Whether an INSERT of a row with this email would violate the unique
constraint on `rsvps.email`. -/
def emailTaken (db : DB) (e : List Nat) : Bool :=
  db.rsvps.any (fun r => r.email == e)

/-- Whether an INSERT of a row with this reservation code would violate the
unique constraint on `rsvps.reservation_id`. -/
def codeTaken (db : DB) (c : List Nat) : Bool :=
  db.rsvps.any (fun r => r.reservation_id == c)

/-- The "Create new RSVP" block of `app.rsvp` (app.py lines 148-161): build
the row with a lowercased email, the generated code and the default payment
status, and commit the INSERT — which the store's unique constraints can
reject. -/
def insertNew (db : DB) (pend : Option PendingRSVP) (f : RSVPForm)
    (email : List Nat) (seed : Nat) : DB × Option PendingRSVP × RouteResult :=
  let code := generate_reservation_id f.name seed
  let nw : RSVPRec :=
    { id := db.nextRsvpId, reservation_id := code, name := f.name, email := email,
      num_guests := f.num_guests, payment_status := notPaid }
  if emailTaken db email ∨ codeTaken db code then (db, pend, .integrityError)
  else
    ({ db with rsvps := db.rsvps ++ [nw], nextRsvpId := db.nextRsvpId + 1 },
     pend, .created)

/-- The duplicate-email check of `app.rsvp` (app.py lines 138-146) followed by
the create block: when a reservation already owns the submitted email and the
caller either asked for `action=new` or has no cookie-resolved reservation,
the submission is parked in `session['pending_rsvp']` and the caller is
redirected to `/confirm-update`; otherwise control falls through to the
INSERT. -/
def createOrConfirm (db : DB) (pend : Option PendingRSVP) (existing : Option RSVPRec)
    (action : Option (List Nat)) (f : RSVPForm) (email : List Nat) (seed : Nat) :
    DB × Option PendingRSVP × RouteResult :=
  match findByEmail db email with
  | some _ =>
    if action = some (pyStr r"new") ∨ existing = none then
      (db, some { name := f.name, email := email, num_guests := f.num_guests },
       .confirmUpdate)
    else insertNew db pend f email seed
  | none => insertNew db pend f email seed

/-- A validated POST to `app.rsvp` (route `/rsvp`): `cookieId` abstracts the
`rsvp_token` cookie, `action` is the query parameter, `pend` the current
`session['pending_rsvp']`. Welcome-back short-circuit, delete, the
`action=new` reset, the modify branch (an unconditional UPDATE whose commit
the email unique constraint can reject), then duplicate-email check and
INSERT, exactly in the source's order. -/
def rsvpRoute (db : DB) (pend : Option PendingRSVP) (cookieId : Option Nat)
    (action : Option (List Nat)) (f : RSVPForm) (seed : Nat) :
    DB × Option PendingRSVP × RouteResult :=
  let existing0 := cookieId.bind (findRsvp db)
  if existing0.isSome ∧ action = none then (db, pend, .welcomeBack)
  else if action = some (pyStr r"delete") ∧ existing0.isSome then
    match existing0 with
    | some r => (deleteRsvp db r.id, pend, .deleted)
    | none => (db, pend, .welcomeBack)
  else
    let existing := if action = some (pyStr r"new") then none else existing0
    let email := pyLower f.email
    match existing with
    | some r =>
      if action = some (pyStr r"modify") then
        let r' := { r with name := f.name, email := email, num_guests := f.num_guests }
        if db.rsvps.any (fun x => !(x.id == r.id) && x.email == email) then
          (db, pend, .integrityError)
        else
          ({ db with rsvps := updateRsvp db.rsvps r' }, pend, .modified)
      else createOrConfirm db pend (some r) action f email seed
    | none => createOrConfirm db pend none action f email seed

/-- Well-formedness of the reservation table: pairwise-distinct primary keys
and emails (the latter is the spec's record-level uniqueness invariant),
emails stored lowercase, keys below the auto-increment counter. -/
structure RsvpInv (db : DB) : Prop where
  pw : db.rsvps.Pairwise (fun a b => a.id ≠ b.id ∧ a.email ≠ b.email)
  low : ∀ r ∈ db.rsvps, r.email = pyLower r.email
  fresh : ∀ r ∈ db.rsvps, r.id < db.nextRsvpId

theorem pySplitAux_mem :
    ∀ (s acc : List Nat), ∀ p ∈ pySplitAux s acc, ∀ c ∈ p, c ∈ s ∨ c ∈ acc := by
  intro s
  induction s with
  | nil =>
    intro acc p hp c hc
    unfold pySplitAux at hp
    split at hp
    · cases hp
    · rw [List.mem_singleton.1 hp] at hc
      exact Or.inr (List.mem_reverse.1 hc)
  | cons a s ih =>
    intro acc p hp c hc
    unfold pySplitAux at hp
    split at hp
    · split at hp
      · rcases ih [] p hp c hc with h | h
        · exact Or.inl (List.mem_cons_of_mem a h)
        · cases h
      · rcases List.mem_cons.1 hp with rfl | hp
        · exact Or.inr (List.mem_reverse.1 hc)
        · rcases ih [] p hp c hc with h | h
          · exact Or.inl (List.mem_cons_of_mem a h)
          · cases h
    · rcases ih (a :: acc) p hp c hc with h | h
      · exact Or.inl (List.mem_cons_of_mem a h)
      · rcases List.mem_cons.1 h with rfl | h
        · exact Or.inl (List.mem_cons_self _ _)
        · exact Or.inr h
theorem pySplitAux_ne_nil :
    ∀ (s acc : List Nat), ∀ p ∈ pySplitAux s acc, p ≠ [] := by
  intro s
  induction s with
  | nil =>
    intro acc p hp
    unfold pySplitAux at hp
    split at hp
    · cases hp
    · rename_i hacc
      rw [List.mem_singleton.1 hp]
      simpa using fun h0 => hacc (by simp [h0])
  | cons a s ih =>
    intro acc p hp
    unfold pySplitAux at hp
    split at hp
    · split at hp
      · exact ih [] p hp
      · rename_i hacc
        rcases List.mem_cons.1 hp with rfl | hp
        · simpa using fun h0 => hacc (by simp [h0])
        · exact ih [] p hp
    · exact ih (a :: acc) p hp

theorem pySplitAux_nonspace :
    ∀ (s acc : List Nat), (∀ c ∈ acc, isSpaceCp c = false) →
      ∀ p ∈ pySplitAux s acc, ∀ c ∈ p, isSpaceCp c = false := by
  intro s
  induction s with
  | nil =>
    intro acc hacc p hp c hc
    unfold pySplitAux at hp
    split at hp
    · cases hp
    · rw [List.mem_singleton.1 hp] at hc
      exact hacc c (List.mem_reverse.1 hc)
  | cons a s ih =>
    intro acc hacc p hp c hc
    unfold pySplitAux at hp
    split at hp
    · split at hp
      · exact ih [] (by intro x hx; cases hx) p hp c hc
      · rcases List.mem_cons.1 hp with rfl | hp
        · exact hacc c (List.mem_reverse.1 hc)
        · exact ih [] (by intro x hx; cases hx) p hp c hc
    · rename_i hsp
      refine ih (a :: acc) ?_ p hp c hc
      intro x hx
      rcases List.mem_cons.1 hx with rfl | hx
      · exact Bool.of_not_eq_true hsp
      · exact hacc x hx

theorem mem_pyStrip {c : Nat} {s : List Nat} (h : c ∈ pyStrip s) : c ∈ s := by
  unfold pyStrip at h
  rw [List.mem_reverse] at h
  have h1 : c ∈ (s.dropWhile isSpaceCp).reverse :=
    List.Sublist.mem h (List.dropWhile_sublist _)
  rw [List.mem_reverse] at h1
  exact List.Sublist.mem h1 (List.dropWhile_sublist _)

theorem upperCp_of_alpha {c : Nat} (h : isAlphaCp c = true) : isUpperCp (upperCp c) = true := by
  simp only [isAlphaCp, isUpperCp, isLowerCp, Bool.or_eq_true, Bool.and_eq_true,
    decide_eq_true_eq] at h
  unfold upperCp
  by_cases hl : (97 : Nat) ≤ c ∧ c ≤ 122
  · rw [if_pos (by simp [isLowerCp]; omega)]
    simp only [isUpperCp, Bool.and_eq_true, decide_eq_true_eq]
    omega
  · rw [if_neg (by simp [isLowerCp]; omega)]
    simp only [isUpperCp, Bool.and_eq_true, decide_eq_true_eq]
    omega

theorem headD_mem {p : List Nat} (h : p ≠ []) : p.headD 0 ∈ p := by
  cases p with
  | nil => exact absurd rfl h
  | cons a t => exact List.mem_cons_self a t

theorem digitsOfSeed_digits (seed : Nat) : ∀ c ∈ digitsOfSeed seed, isDigitCp c = true := by
  intro c hc
  simp only [digitsOfSeed, List.mem_cons, List.not_mem_nil, or_false] at hc
  simp only [isDigitCp, Bool.and_eq_true, decide_eq_true_eq]
  have h1 : seed / 1000 % 10 < 10 := Nat.mod_lt _ (by omega)
  have h2 : seed / 100 % 10 < 10 := Nat.mod_lt _ (by omega)
  have h3 : seed / 10 % 10 < 10 := Nat.mod_lt _ (by omega)
  have h4 : seed % 10 < 10 := Nat.mod_lt _ (by omega)
  rcases hc with rfl | rfl | rfl | rfl <;> omega

theorem generate_code_shape (name : List Nat) (seed : Nat) :
    ∃ src, generate_reservation_id name seed = pyUpper src ++ digitsOfSeed seed ∧
      src.length = 2 ∧ ∀ c ∈ src, (c ∈ name ∧ isSpaceCp c = false) ∨ c = 88 := by
  have hmemns : ∀ p ∈ pySplit (pyStrip name), ∀ c ∈ p, c ∈ name ∧ isSpaceCp c = false := by
    intro p hp c hc
    constructor
    · rcases pySplitAux_mem (pyStrip name) [] p hp c hc with h | h
      · exact mem_pyStrip h
      · cases h
    · exact pySplitAux_nonspace (pyStrip name) [] (by intro x hx; cases hx) p hp c hc
  have hnn : ∀ p ∈ pySplit (pyStrip name), p ≠ [] :=
    pySplitAux_ne_nil (pyStrip name) []
  have hXX : pyStr r"XX" = pyUpper [88, 88] := by decide
  have hXXmem : ∀ c ∈ ([88, 88] : List Nat),
      (c ∈ name ∧ isSpaceCp c = false) ∨ c = 88 := by
    intro c hc
    have hc' : c = 88 := by
      rcases List.mem_cons.1 hc with rfl | hc
      · rfl
      · simpa using hc
    exact Or.inr hc'
  unfold generate_reservation_id
  cases hps : pySplit (pyStrip name) with
  | nil =>
    refine ⟨[88, 88], ?_, rfl, hXXmem⟩
    show pyStr r"XX" ++ digitsOfSeed seed = pyUpper [88, 88] ++ digitsOfSeed seed
    rw [hXX]
  | cons p1 rest =>
    have hp1 : p1 ∈ pySplit (pyStrip name) := by
      rw [hps]; exact List.mem_cons_self _ _
    cases rest with
    | nil =>
      dsimp only
      by_cases hlen : 2 ≤ p1.length
      · rw [if_pos hlen]
        refine ⟨p1.take 2, rfl, ?_, ?_⟩
        · simp only [List.length_take]
          omega
        · intro c hc
          exact Or.inl (hmemns p1 hp1 c (List.Sublist.mem hc (List.take_sublist 2 p1)))
      · rw [if_neg hlen]
        refine ⟨[88, 88], ?_, rfl, hXXmem⟩
        show pyStr r"XX" ++ digitsOfSeed seed = pyUpper [88, 88] ++ digitsOfSeed seed
        rw [hXX]
    | cons p2 rest2 =>
      dsimp only
      have hp2 : p2 ∈ pySplit (pyStrip name) := by
        rw [hps]; exact List.mem_cons_of_mem _ (List.mem_cons_self _ _)
      refine ⟨[p1.headD 0, p2.headD 0], rfl, rfl, ?_⟩
      intro c hc
      rcases List.mem_cons.1 hc with rfl | hc
      · exact Or.inl (hmemns p1 hp1 _ (headD_mem (hnn p1 hp1)))
      · rcases List.mem_cons.1 hc with rfl | h0
        · exact Or.inl (hmemns p2 hp2 _ (headD_mem (hnn p2 hp2)))
        · cases h0

theorem findRsvp_self {db : DB} {i : Nat} {r : RSVPRec} (h : findRsvp db i = some r) :
    findRsvp db r.id = some r := by
  have hid : r.id = i := by simpa using List.find?_some h
  rw [hid]; exact h

theorem findRsvp_mem {db : DB} {i : Nat} {r : RSVPRec} (h : findRsvp db i = some r) :
    r ∈ db.rsvps :=
  List.mem_of_find?_eq_some h

theorem bind_findRsvp_self {db : DB} {o : Option Nat} {r : RSVPRec}
    (h : o.bind (findRsvp db) = some r) : findRsvp db r.id = some r := by
  rcases Option.bind_eq_some.1 h with ⟨i, _, hf⟩
  exact findRsvp_self hf

theorem find?_updateRsvp {rs : List RSVPRec} {i : Nat} {r0 : RSVPRec} (r' : RSVPRec)
    (h : rs.find? (fun x => x.id == i) = some r0) (hi : r'.id = i) :
    (updateRsvp rs r').find? (fun x => x.id == i) = some r' := by
  induction rs with
  | nil => cases h
  | cons q rs ih =>
    by_cases hq : q.id = i
    · rw [updateRsvp, List.map_cons, if_pos (by simp [hi, hq]),
        List.find?_cons_of_pos _ (by simpa using hi)]
    · rw [List.find?_cons_of_neg _ (by simpa using hq)] at h
      rw [updateRsvp, List.map_cons, if_neg (by simp [hi, hq]),
        List.find?_cons_of_neg _ (by simpa using hq)]
      exact ih h

/-- A two-reservation sample store used to instantiate the theorems: `rAW`
has one guest slot filled, `rBW` has both. -/
def rAW : RSVPRec :=
  { id := 1, reservation_id := pyStr r"JS1234", name := pyStr r"Jane Smith",
    email := pyStr r"jane@westpoint.edu", num_guests := 1, payment_status := notPaid }

def rBW : RSVPRec :=
  { id := 2, reservation_id := pyStr r"JD5678", name := pyStr r"John Doe",
    email := pyStr r"john@westpoint.edu", num_guests := 2,
    payment_status := pyStr r"cash" }

def gB1W : GuestRec :=
  { id := 1, rsvp_id := 2, guest_number := 1, first_name := pyStr r"John",
    last_name := pyStr r"Doe", title_rank := [], meal_preference := buffetDinner,
    allergy_notes := [], fun_fact := [] }

def gB2W : GuestRec :=
  { id := 2, rsvp_id := 2, guest_number := 2, first_name := pyStr r"Jana",
    last_name := pyStr r"Doe", title_rank := [], meal_preference := buffetDinner,
    allergy_notes := [], fun_fact := [] }

def dbW : DB :=
  { rsvps := [rAW, rBW], guests := [gB1W, gB2W], prefs := [],
    nextRsvpId := 3, nextGuestId := 3 }

theorem guestInv_dbW : GuestInv dbW := by
  refine ⟨by decide, by decide, by decide, by decide, ?_, by decide⟩
  rintro rid ⟨g, hg, hgr, hgn⟩
  have hg' : g = gB1W ∨ g = gB2W := by simpa [dbW] using hg
  rcases hg' with rfl | rfl
  · exact absurd hgn (by decide)
  · exact ⟨gB1W, by simp [dbW], by rw [← hgr]; decide, rfl⟩

theorem rsvpInv_dbW : RsvpInv dbW := by
  refine ⟨?_, by decide, by decide⟩
  decide

theorem notPaid_ne_changed : notPaid ≠ guestsChangedNotPaid := by decide

/-- C5: for a resolved reservation with party size 1, `add_guest` sets the
party size to 2 and forces `payment_status` to `guests changed - not paid`
exactly when the current status is not the default `not paid` (a `not paid`
status stays `not paid`); with party size already 2 the operation leaves the
store untouched. -/
theorem add_guest_spec (db : DB) (cid : Option Nat) (r : RSVPRec)
    (hres : cid.bind (findRsvp db) = some r) :
    (r.num_guests = 1 →
      ∃ r', findRsvp (addGuest db cid) r.id = some r' ∧ r'.num_guests = 2 ∧
        (r'.payment_status = guestsChangedNotPaid ↔ r.payment_status ≠ notPaid) ∧
        (r.payment_status = notPaid → r'.payment_status = notPaid)) ∧
    (r.num_guests = 2 → addGuest db cid = db) := by
  constructor
  · intro h1
    have hdb' : addGuest db cid = { db with rsvps := updateRsvp db.rsvps { r with num_guests := 2, payment_status := if r.payment_status ≠ notPaid then guestsChangedNotPaid else r.payment_status } } := by
      unfold addGuest
      rw [hres]
      dsimp only
      rw [if_neg (by omega)]
    refine ⟨{ r with num_guests := 2, payment_status := if r.payment_status ≠ notPaid then guestsChangedNotPaid else r.payment_status }, ?_, rfl, ?_, ?_⟩
    · rw [hdb']
      exact find?_updateRsvp _ (bind_findRsvp_self hres) rfl
    · by_cases hs : r.payment_status = notPaid
      · simp [hs, notPaid_ne_changed]
      · simp [hs]
    · intro hs
      simp [hs]
  · intro h2
    unfold addGuest
    rw [hres]
    dsimp only
    rw [if_pos (by omega)]

/-- C5 witness: in the sample store, adding a guest to the size-1 reservation
with default payment status yields size 2 and an unchanged `not paid`. -/
theorem add_guest_spec_witness :
    (rAW.num_guests = 1 →
      ∃ r', findRsvp (addGuest dbW (some 1)) rAW.id = some r' ∧ r'.num_guests = 2 ∧
        (r'.payment_status = guestsChangedNotPaid ↔ rAW.payment_status ≠ notPaid) ∧
        (rAW.payment_status = notPaid → r'.payment_status = notPaid)) ∧
    (rAW.num_guests = 2 → addGuest dbW (some 1) = dbW) :=
  add_guest_spec dbW (some 1) rAW (by decide)

/-- C9: `mark_payment` overwrites the payment status with
`pending - <method>` from any current status once a reservation resolves and
the method is `cash` or `Venmo`; with any other method value, or when no
reservation resolves, the store is left unchanged. -/
theorem mark_payment_spec (db : DB) (cid sess : Option Nat) (m : List Nat) :
    (∀ r, resolvePayment db cid sess = some r →
      ((m = pyStr r"cash" ∨ m = pyStr r"Venmo") →
        findRsvp (markPayment db cid sess m) r.id =
          some { r with payment_status := pyStr r"pending - " ++ m }) ∧
      (¬(m = pyStr r"cash" ∨ m = pyStr r"Venmo") → markPayment db cid sess m = db)) ∧
    (resolvePayment db cid sess = none → markPayment db cid sess m = db) := by
  constructor
  · intro r hres
    have hfind : findRsvp db r.id = some r := by
      unfold resolvePayment at hres
      cases hc : cid.bind (findRsvp db) with
      | some x =>
        rw [hc] at hres
        dsimp only at hres
        cases hres
        exact bind_findRsvp_self hc
      | none =>
        rw [hc] at hres
        dsimp only at hres
        exact bind_findRsvp_self hres
    constructor
    · intro hm
      have hdb' : markPayment db cid sess m = { db with rsvps := updateRsvp db.rsvps { r with payment_status := pyStr r"pending - " ++ m } } := by
        unfold markPayment
        rw [hres]
        dsimp only
        rw [if_pos hm]
      rw [hdb']
      exact find?_updateRsvp _ hfind rfl
    · intro hm
      unfold markPayment
      rw [hres]
      dsimp only
      rw [if_neg hm]
  · intro hnone
    unfold markPayment
    rw [hnone]

/-- C9 witness: the reservation with the admin-confirmed `cash` status is
moved to `pending - Venmo` by the user self-report. -/
theorem mark_payment_spec_witness :
    findRsvp (markPayment dbW (some 2) none (pyStr r"Venmo")) rBW.id =
      some { rBW with payment_status := pyStr r"pending - " ++ pyStr r"Venmo" } :=
  ((mark_payment_spec dbW (some 2) none (pyStr r"Venmo")).1 rBW (by decide)).1
    (Or.inr rfl)

/-- C8: the guest-info page resolves a reservation from its raw numeric id
passed as the `rsvp_id` query parameter, storing that id in the session, with
no cookie token presented. -/
theorem guest_info_raw_id (db : DB) (i : Nat) (sess : Option Nat) (r : RSVPRec)
    (h : findRsvp db i = some r) :
    guestInfoResolve db none (some i) sess = (some r, some r.id) := by
  simp [guestInfoResolve, h]

/-- C8 witness: reservation 2 of the sample store is resolved from the bare
id with no token. -/
theorem guest_info_raw_id_witness :
    findRsvp dbW 2 = some rBW ∧
    guestInfoResolve dbW none (some 2) none = (some rBW, some rBW.id) :=
  ⟨by decide, guest_info_raw_id dbW 2 none rBW (by decide)⟩

/-- C10: removing a valid-numbered but vacant guest slot leaves the roster
unchanged yet still commits `num_guests = 1` on the reservation. -/
theorem remove_vacant_slot (db : DB) (cid : Option Nat) (n : Nat) (r : RSVPRec)
    (hinv : GuestInv db) (hres : cid.bind (findRsvp db) = some r)
    (hn : n = 1 ∨ n = 2) (hvac : ¬ slotOccupied db.guests r.id n) :
    (removeGuestByNumber db cid n).guests = db.guests ∧
    findRsvp (removeGuestByNumber db cid n) r.id = some { r with num_guests := 1 } := by
  have hfs : findSlot db.guests r.id n = none := findSlot_eq_none.2 hvac
  have hdb' : removeGuestByNumber db cid n = { db with rsvps := updateRsvp db.rsvps { r with num_guests := 1 } } := by
    unfold removeGuestByNumber
    rw [hres]
    dsimp only
    rw [if_neg (not_not_intro hn)]
    rcases hn with rfl | rfl
    · have h2 : findSlot db.guests r.id 2 = none :=
        findSlot_eq_none.2 (fun hocc2 => hvac (hinv.occ r.id hocc2))
      simp [hfs, h2]
    · simp [hfs]
  constructor
  · rw [hdb']
  · rw [hdb']
    exact find?_updateRsvp _ (bind_findRsvp_self hres) rfl

/-- C10 witness: reservation 1 of the sample store has no slot-2 guest;
removing slot 2 keeps the roster and commits party size 1. -/
theorem remove_vacant_slot_witness :
    (removeGuestByNumber dbW (some 1) 2).guests = dbW.guests ∧
    findRsvp (removeGuestByNumber dbW (some 1) 2) rAW.id =
      some { rAW with num_guests := 1 } :=
  remove_vacant_slot dbW (some 1) 2 rAW guestInv_dbW (by decide) (Or.inr rfl) (by decide)

/-- C4: saving any ordered id sequence as the seating preference and reading
the ranked list back returns the same sequence in order (whole-list replace
round-trip, the empty sequence included). -/
theorem seating_roundtrip (db : DB) (rid : Nat) (ids : List Nat) :
    readPreference (savePreference db rid ids) rid = ids := by
  unfold savePreference
  cases hp : db.prefs.find? (fun p => p.rsvp_id == rid) with
  | some p0 =>
    dsimp only
    unfold readPreference
    dsimp only
    rw [find?_set_ranked db.prefs rid ids p0 hp]
    unfold get_ranked_list set_ranked_list
    exact decodeRanked_encodeRanked ids
  | none =>
    dsimp only
    unfold readPreference
    dsimp only
    rw [List.find?_append, hp]
    have hfind1 : ([set_ranked_list { rsvp_id := rid, ranked_ids := [] } ids].find?
        (fun p => p.rsvp_id == rid)) =
        some (set_ranked_list { rsvp_id := rid, ranked_ids := [] } ids) := by
      apply List.find?_cons_of_pos
      simp [set_ranked_list]
    rw [hfind1]
    dsimp only [Option.or]
    unfold get_ranked_list set_ranked_list
    exact decodeRanked_encodeRanked ids

theorem findSlot_of_unique {gs : List GuestRec} {g : GuestRec}
    (hg : g ∈ gs) {R n : Nat} (hr : g.rsvp_id = R) (hn : g.guest_number = n)
    (huniq : ∀ a ∈ gs, a.rsvp_id = R → a.guest_number = n → a = g) :
    findSlot gs R n = some g := by
  cases hf : findSlot gs R n with
  | none => exact absurd ⟨g, hg, hr, hn⟩ (findSlot_eq_none.1 hf)
  | some g' =>
    obtain ⟨hm', hr', hn'⟩ := findSlot_eq_some hf
    rw [huniq g' hm' hr' hn']

theorem nodup_singleton_of_iff {α : Type} {l : List α} {a : α} (hnd : l.Nodup)
    (hiff : ∀ x, x ∈ l ↔ x = a) : l = [a] := by
  cases l with
  | nil => exact absurd ((hiff a).2 rfl) (List.not_mem_nil a)
  | cons b t =>
    have hb : b = a := (hiff b).1 (List.mem_cons_self b t)
    subst hb
    cases t with
    | nil => rfl
    | cons c t2 =>
      have hc : c = b := (hiff c).1 (List.mem_cons_of_mem _ (List.mem_cons_self c t2))
      subst hc
      exact absurd hnd (by simp)

/-- C3: removing the slot-1 guest of a reservation occupying both slots
leaves exactly one guest row for that reservation — the former slot-2 guest,
renumbered to slot 1 — and, for either valid slot number, the removal commits
the reservation's party size as 1. -/
theorem remove_guest1_spec (db : DB) (cid : Option Nat) (r : RSVPRec) (g1 g2 : GuestRec)
    (hinv : GuestInv db) (hres : cid.bind (findRsvp db) = some r)
    (hg1 : g1 ∈ db.guests) (hg1r : g1.rsvp_id = r.id) (hg1n : g1.guest_number = 1)
    (hg2 : g2 ∈ db.guests) (hg2r : g2.rsvp_id = r.id) (hg2n : g2.guest_number = 2) :
    guestsOf (removeGuestByNumber db cid 1).guests r.id = [{ g2 with guest_number := 1 }] ∧
    (∀ n, n = 1 ∨ n = 2 →
      findRsvp (removeGuestByNumber db cid n) r.id = some { r with num_guests := 1 }) := by
  have hf1 : findSlot db.guests r.id 1 = some g1 :=
    findSlot_of_unique hg1 hg1r hg1n (fun a ha har han =>
      hinv.pairU a ha g1 hg1 (har.trans hg1r.symm) (han.trans hg1n.symm))
  have hg2id : g2.id ≠ g1.id := by
    intro h
    have he := hinv.idU g2 hg2 g1 hg1 h
    rw [he, hg1n] at hg2n
    exact absurd hg2n (by omega)
  have hg2E : g2 ∈ eraseGuestId db.guests g1.id := mem_eraseGuestId.2 ⟨hg2, hg2id⟩
  have hf2 : findSlot (eraseGuestId db.guests g1.id) r.id 2 = some g2 :=
    findSlot_of_unique hg2E hg2r hg2n (fun a ha har han =>
      hinv.pairU a (mem_eraseGuestId.1 ha).1 g2 hg2 (har.trans hg2r.symm) (han.trans hg2n.symm))
  constructor
  · have hdb1 : removeGuestByNumber db cid 1 = { db with guests := renumberTo1 (eraseGuestId db.guests g1.id) g2.id, rsvps := updateRsvp db.rsvps { r with num_guests := 1 } } := by
      unfold removeGuestByNumber
      rw [hres]
      dsimp only
      rw [if_neg (not_not_intro (Or.inl rfl))]
      simp [hf1, hf2]
    rw [hdb1]
    have hidUE : ∀ a ∈ eraseGuestId db.guests g1.id, ∀ b ∈ eraseGuestId db.guests g1.id,
        a.id = b.id → a = b := fun a ha b hb =>
      hinv.idU a (mem_eraseGuestId.1 ha).1 b (mem_eraseGuestId.1 hb).1
    have hndR : (renumberTo1 (eraseGuestId db.guests g1.id) g2.id).Nodup :=
      (hinv.nodup.filter _).map_on (fun a ha b hb hfe =>
        hidUE a ha b hb (by rw [← renumFun_id a g2.id, ← renumFun_id b g2.id, hfe]))
    have hiff : ∀ x, x ∈ guestsOf (renumberTo1 (eraseGuestId db.guests g1.id) g2.id) r.id ↔
        x = { g2 with guest_number := 1 } := by
      intro x
      constructor
      · intro hx
        rcases List.mem_filter.1 hx with ⟨hxR, hxr⟩
        rcases List.mem_map.1 hxR with ⟨x0, hx0, rfl⟩
        rw [renumFun_rsvp] at hxr
        have hxr' : x0.rsvp_id = r.id := by simpa using hxr
        by_cases hxid : x0.id = g2.id
        · have hx0g2 : x0 = g2 := hidUE x0 hx0 g2 hg2E hxid
          subst hx0g2
          simp
        · exfalso
          have hx0gs : x0 ∈ db.guests := (mem_eraseGuestId.1 hx0).1
          have hx0id1 : x0.id ≠ g1.id := (mem_eraseGuestId.1 hx0).2
          rcases hinv.slots x0 hx0gs with h1 | h2
          · exact hx0id1 (congrArg GuestRec.id
              (hinv.pairU x0 hx0gs g1 hg1 (hxr'.trans hg1r.symm) (h1.trans hg1n.symm)))
          · exact hxid (congrArg GuestRec.id
              (hinv.pairU x0 hx0gs g2 hg2 (hxr'.trans hg2r.symm) (h2.trans hg2n.symm)))
      · intro hx
        rw [hx]
        refine List.mem_filter.2 ⟨List.mem_map.2 ⟨g2, hg2E, by simp⟩, by simpa using hg2r⟩
    exact nodup_singleton_of_iff (hndR.filter _) hiff
  · intro n hn
    have hrsvps : (removeGuestByNumber db cid n).rsvps =
        updateRsvp db.rsvps { r with num_guests := 1 } := by
      unfold removeGuestByNumber
      rw [hres]
      dsimp only
      rw [if_neg (not_not_intro hn)]
    show (removeGuestByNumber db cid n).rsvps.find? (fun x => x.id == r.id) = _
    rw [hrsvps]
    exact find?_updateRsvp _ (bind_findRsvp_self hres) rfl

/-- C3 witness: removing guest 1 of the two-guest sample reservation leaves
only the former guest 2, now at slot 1, and party size 1. -/
theorem remove_guest1_spec_witness :
    guestsOf (removeGuestByNumber dbW (some 2) 1).guests rBW.id =
      [{ gB2W with guest_number := 1 }] ∧
    (∀ n, n = 1 ∨ n = 2 →
      findRsvp (removeGuestByNumber dbW (some 2) n) rBW.id =
        some { rBW with num_guests := 1 }) :=
  remove_guest1_spec dbW (some 2) rBW gB1W gB2W guestInv_dbW (by decide)
    (by decide) (by decide) (by decide) (by decide) (by decide) (by decide)

/-- C2: starting from a well-formed store, any sequence of guest
add/remove/upsert operations leaves the roster with slot 2 never occupied
while slot 1 is vacant; and removing the slot-1 guest while a slot-2 guest
exists renumbers that slot-2 guest to slot 1. -/
theorem guest_roster_invariant (db : DB) (ops : List RosterOp) (hinv : GuestInv db) :
    (∀ rid, slotOccupied (applyOps db ops).guests rid 2 →
      slotOccupied (applyOps db ops).guests rid 1) ∧
    (∀ cid r g2, cid.bind (findRsvp db) = some r → g2 ∈ db.guests →
      g2.rsvp_id = r.id → g2.guest_number = 2 →
      { g2 with guest_number := 1 } ∈ (removeGuestByNumber db cid 1).guests) := by
  constructor
  · exact (guestInv_applyOps db ops hinv).occ
  · intro cid r g2 hres hg2 hg2r hg2n
    obtain ⟨g1, hg1, hg1r, hg1n⟩ := hinv.occ r.id ⟨g2, hg2, hg2r, hg2n⟩
    have hf1 : findSlot db.guests r.id 1 = some g1 :=
      findSlot_of_unique hg1 hg1r hg1n (fun a ha har han =>
        hinv.pairU a ha g1 hg1 (har.trans hg1r.symm) (han.trans hg1n.symm))
    have hg2id : g2.id ≠ g1.id := by
      intro h
      have he := hinv.idU g2 hg2 g1 hg1 h
      rw [he, hg1n] at hg2n
      exact absurd hg2n (by omega)
    have hg2E : g2 ∈ eraseGuestId db.guests g1.id := mem_eraseGuestId.2 ⟨hg2, hg2id⟩
    have hf2 : findSlot (eraseGuestId db.guests g1.id) r.id 2 = some g2 :=
      findSlot_of_unique hg2E hg2r hg2n (fun a ha har han =>
        hinv.pairU a (mem_eraseGuestId.1 ha).1 g2 hg2 (har.trans hg2r.symm) (han.trans hg2n.symm))
    have hdb1 : removeGuestByNumber db cid 1 = { db with guests := renumberTo1 (eraseGuestId db.guests g1.id) g2.id, rsvps := updateRsvp db.rsvps { r with num_guests := 1 } } := by
      unfold removeGuestByNumber
      rw [hres]
      dsimp only
      rw [if_neg (not_not_intro (Or.inl rfl))]
      simp [hf1, hf2]
    rw [hdb1]
    exact List.mem_map.2 ⟨g2, hg2E, by simp⟩

/-- C2 witness: the roster invariant after a concrete operation sequence on
the sample store, and the concrete renumbering of its slot-2 guest. -/
theorem guest_roster_invariant_witness :
    (∀ rid,
      slotOccupied (applyOps dbW [RosterOp.removeByNumber (some 2) 1,
        RosterOp.add (some 2), RosterOp.removeSession (some 2) (some 2)]).guests rid 2 →
      slotOccupied (applyOps dbW [RosterOp.removeByNumber (some 2) 1,
        RosterOp.add (some 2), RosterOp.removeSession (some 2) (some 2)]).guests rid 1) ∧
    (∀ cid r g2, cid.bind (findRsvp dbW) = some r → g2 ∈ dbW.guests →
      g2.rsvp_id = r.id → g2.guest_number = 2 →
      { g2 with guest_number := 1 } ∈ (removeGuestByNumber dbW cid 1).guests) :=
  guest_roster_invariant dbW
    [RosterOp.removeByNumber (some 2) 1, RosterOp.add (some 2),
     RosterOp.removeSession (some 2) (some 2)] guestInv_dbW

theorem lowerCp_idem (c : Nat) : lowerCp (lowerCp c) = lowerCp c := by
  unfold lowerCp isUpperCp
  by_cases h : (65 : Nat) ≤ c ∧ c ≤ 90
  · have h2 : ¬((65 : Nat) ≤ c + 32 ∧ c + 32 ≤ 90) := by omega
    simp [h, h2]
    omega
  · simp [h]

theorem pyLower_idem (s : List Nat) : pyLower (pyLower s) = pyLower s := by
  unfold pyLower
  rw [List.map_map]
  have h : lowerCp ∘ lowerCp = lowerCp := funext lowerCp_idem
  rw [h]

theorem rsvpInv_deleteRsvp (db : DB) (i : Nat) (hinv : RsvpInv db) :
    RsvpInv (deleteRsvp db i) := by
  refine ⟨hinv.pw.filter _, ?_, ?_⟩
  · intro x hx; exact hinv.low x (List.mem_filter.1 hx).1
  · intro x hx; exact hinv.fresh x (List.mem_filter.1 hx).1

theorem rsvpInv_insertNew (db : DB) (pend : Option PendingRSVP) (f : RSVPForm)
    (seed : Nat) (hinv : RsvpInv db) :
    RsvpInv (insertNew db pend f (pyLower f.email) seed).1 := by
  unfold insertNew
  dsimp only
  split
  · exact hinv
  · rename_i hcond
    have hem : ∀ x ∈ db.rsvps, x.email ≠ pyLower f.email := by
      intro x hx heq
      refine hcond (Or.inl ?_)
      unfold emailTaken
      rw [List.any_eq_true]
      exact ⟨x, hx, by simp [heq]⟩
    refine ⟨?_, ?_, ?_⟩
    · refine List.pairwise_append.2 ⟨hinv.pw, List.pairwise_singleton _ _, ?_⟩
      intro a ha b hb
      rw [List.mem_singleton.1 hb]
      exact ⟨fun hid => absurd (hinv.fresh a ha) (by rw [hid]; dsimp only; omega),
        hem a ha⟩
    · intro x hx
      rcases List.mem_append.1 hx with hx | hx
      · exact hinv.low x hx
      · rw [List.mem_singleton.1 hx]
        exact (pyLower_idem f.email).symm
    · intro x hx
      rcases List.mem_append.1 hx with hx | hx
      · have hlt := hinv.fresh x hx
        dsimp only
        omega
      · rw [List.mem_singleton.1 hx]
        dsimp only
        omega

theorem rsvpInv_createOrConfirm (db : DB) (pend : Option PendingRSVP)
    (existing : Option RSVPRec) (action : Option (List Nat)) (f : RSVPForm)
    (seed : Nat) (hinv : RsvpInv db) :
    RsvpInv (createOrConfirm db pend existing action f (pyLower f.email) seed).1 := by
  unfold createOrConfirm
  cases hfe : findByEmail db (pyLower f.email) with
  | some x =>
    dsimp only
    split
    · exact hinv
    · exact rsvpInv_insertNew db pend f seed hinv
  | none => exact rsvpInv_insertNew db pend f seed hinv

theorem rsvpInv_modify (db : DB) (r : RSVPRec) (hinv : RsvpInv db)
    (hr : r ∈ db.rsvps) (nm em : List Nat) (ng : Nat) (hem : em = pyLower em)
    (hcheck : ∀ x ∈ db.rsvps, x.id ≠ r.id → x.email ≠ em) :
    RsvpInv { db with rsvps := updateRsvp db.rsvps { r with name := nm, email := em, num_guests := ng } } := by
  refine ⟨?_, ?_, ?_⟩
  · show (updateRsvp db.rsvps _).Pairwise _
    unfold updateRsvp
    rw [List.pairwise_map]
    refine hinv.pw.imp_of_mem ?_
    intro a b ha hb hab
    by_cases ha' : a.id = r.id <;> by_cases hb' : b.id = r.id
    · exact absurd (ha'.trans hb'.symm) hab.1
    · rw [if_pos (by simpa using ha'), if_neg (by simpa using hb')]
      exact ⟨fun h => hb' h.symm, fun he => hcheck b hb hb' he.symm⟩
    · rw [if_neg (by simpa using ha'), if_pos (by simpa using hb')]
      exact ⟨ha', hcheck a ha ha'⟩
    · rw [if_neg (by simpa using ha'), if_neg (by simpa using hb')]
      exact hab
  · intro x hx
    rcases List.mem_map.1 hx with ⟨x0, hx0, rfl⟩
    split
    · exact hem
    · exact hinv.low x0 hx0
  · intro x hx
    rcases List.mem_map.1 hx with ⟨x0, hx0, rfl⟩
    split
    · exact hinv.fresh r hr
    · exact hinv.fresh x0 hx0

theorem rsvpInv_rsvpRoute (db : DB) (pend : Option PendingRSVP) (cid : Option Nat)
    (action : Option (List Nat)) (f : RSVPForm) (seed : Nat) (hinv : RsvpInv db) :
    RsvpInv (rsvpRoute db pend cid action f seed).1 := by
  unfold rsvpRoute
  dsimp only
  split
  · exact hinv
  · split
    · split
      · exact rsvpInv_deleteRsvp db _ hinv
      · exact hinv
    · split
      · rename_i r heq
        have hr : r ∈ db.rsvps := by
          split at heq
          · cases heq
          · exact findRsvp_mem (by rcases Option.bind_eq_some.1 heq with ⟨i, _, hf⟩; exact findRsvp_self hf)
        split
        · split
          · exact hinv
          · rename_i hany
            refine rsvpInv_modify db r hinv hr f.name (pyLower f.email) f.num_guests
              (pyLower_idem f.email).symm ?_
            intro x hx hxid hxe
            refine hany ?_
            rw [List.any_eq_true]
            exact ⟨x, hx, by simp [hxid, hxe]⟩
        · exact rsvpInv_createOrConfirm db pend _ action f seed hinv
      · exact rsvpInv_createOrConfirm db pend _ action f seed hinv

/-- A form submission whose email collides, case-insensitively, with the
sample store's second reservation. -/
def fBW : RSVPForm :=
  { name := pyStr r"Jane Smith", email := pyStr r"John@westpoint.edu", num_guests := 1 }

/-- C6 (code evaluated at the failing input): with the caller identified as
reservation 1 and `action=modify`, editing the email to reservation 2's email
is not rejected as a validation failure — the route writes unconditionally and
only the store's unique constraint aborts the commit with an integrity error
(an unhandled exception, HTTP 500), leaving the store unchanged. -/
theorem modify_email_collision_errors :
    rsvpRoute dbW none (some 1) (some (pyStr r"modify")) fBW 0 =
      (dbW, none, RouteResult.integrityError) := by decide

/-- C1 counterexample: a submission from a cookie-identified caller with an
unrecognized `action` value (`action=edit`) and an email already owned by
another reservation is NOT routed to the merge-decision flow and stores no
pending data — it falls through to the INSERT, which dies on the unique
constraint. -/
theorem rsvp_duplicate_bypasses_merge :
    rBW ∈ dbW.rsvps ∧ pyLower fBW.email = rBW.email ∧
    (rsvpRoute dbW none (some 1) (some (pyStr r"edit")) fBW 0).2.2 ≠
      RouteResult.confirmUpdate ∧
    (rsvpRoute dbW none (some 1) (some (pyStr r"edit")) fBW 0).2.1 = none := by
  decide

/-- C1 (amended): the reservation-table invariant — pairwise-distinct emails
included — is preserved by every validated `/rsvp` POST, so no second row with
a duplicate email is ever committed; and a submission whose lowercased email
matches an existing reservation's is parked as pending data and routed to the
merge-decision flow whenever the caller has no cookie-resolved reservation or
explicitly requested `action=new` (with a cookie-resolved reservation and an
unrecognized action value the merge flow is bypassed and the INSERT is aborted
by the store instead). -/
theorem rsvp_email_unique (db : DB) (pend : Option PendingRSVP) (cid : Option Nat)
    (action : Option (List Nat)) (f : RSVPForm) (seed : Nat) (hinv : RsvpInv db) :
    RsvpInv (rsvpRoute db pend cid action f seed).1 ∧
    (∀ r0 ∈ db.rsvps, pyLower r0.email = pyLower f.email →
      (cid.bind (findRsvp db) = none ∨ action = some (pyStr r"new")) →
      rsvpRoute db pend cid action f seed =
        (db, some { name := f.name, email := pyLower f.email, num_guests := f.num_guests },
          RouteResult.confirmUpdate)) := by
  refine ⟨rsvpInv_rsvpRoute db pend cid action f seed hinv, ?_⟩
  intro r0 hr0 hem hcase
  have hr0e : r0.email = pyLower f.email := (hinv.low r0 hr0).trans hem
  have hx : ∃ x, findByEmail db (pyLower f.email) = some x := by
    cases hfind : findByEmail db (pyLower f.email) with
    | some x => exact ⟨x, rfl⟩
    | none =>
      exact absurd (by simp [hr0e] : (fun r => r.email == pyLower f.email) r0 = true)
        ((List.find?_eq_none.1 hfind) r0 hr0)
  rcases hx with ⟨x, hx⟩
  rcases hcase with hnone | hnew
  · simp [rsvpRoute, createOrConfirm, hnone, hx]
  · subst hnew
    have hnd : (pyStr r"new") ≠ (pyStr r"delete") := by decide
    simp [rsvpRoute, createOrConfirm, hnd, hx]

/-- C1 witness: a caller with no cookie submitting the case-variant email of
reservation 2 is routed to the merge flow with the pending payload set and the
store untouched. -/
theorem rsvp_email_unique_witness :
    rsvpRoute dbW none none none fBW 0 =
      (dbW, some { name := fBW.name, email := pyLower fBW.email, num_guests := fBW.num_guests }, RouteResult.confirmUpdate) :=
  (rsvp_email_unique dbW none none none fBW 0 rsvpInv_dbW).2 rBW (by decide)
    (by decide) (Or.inl rfl)

/-- C7 counterexample: the reservation code for the valid name `42 signal`
starts with the digit `4`, not two uppercase letters. -/
theorem reservation_code_not_letters :
    ¬ (∀ c ∈ (generate_reservation_id (pyStr r"42 signal") 1234).take 2,
        isUpperCp c = true) := by decide

/-- C7 (amended): for every valid input the generated reservation code is 6
characters — a 2-character prefix that is the uppercasing of characters drawn
from the name (non-whitespace) or the `XX` fallback (codepoint 88), followed
by 4 digits — and a successful INSERT stores exactly that code with a party
size in {1, 2}; whenever the name consists of ASCII letters and whitespace,
the prefix characters are uppercase letters (for other valid names such as
`42 signal` they need not be). -/
theorem reservation_code_format (db : DB) (pend : Option PendingRSVP) (f : RSVPForm)
    (seed : Nat) (hvalid : f.num_guests = 1 ∨ f.num_guests = 2) :
    (generate_reservation_id f.name seed).length = 6 ∧
    (∃ src, (generate_reservation_id f.name seed).take 2 = pyUpper src ∧
      src.length = 2 ∧ ∀ c ∈ src, (c ∈ f.name ∧ isSpaceCp c = false) ∨ c = 88) ∧
    (∀ c ∈ (generate_reservation_id f.name seed).drop 2, isDigitCp c = true) ∧
    ((∀ c ∈ f.name, isAlphaCp c = true ∨ isSpaceCp c = true) →
      ∀ c ∈ (generate_reservation_id f.name seed).take 2, isUpperCp c = true) ∧
    (∀ db' pend', insertNew db pend f (pyLower f.email) seed = (db', pend', .created) →
      ∃ nw, db'.rsvps = db.rsvps ++ [nw] ∧
        nw.reservation_id = generate_reservation_id f.name seed ∧
        (nw.num_guests = 1 ∨ nw.num_guests = 2)) := by
  obtain ⟨src, heq, hlen, hsrc⟩ := generate_code_shape f.name seed
  have hlenU : (pyUpper src).length = 2 := by
    simp only [pyUpper, List.length_map]
    exact hlen
  have htake : (generate_reservation_id f.name seed).take 2 = pyUpper src := by
    rw [heq, ← hlenU]
    exact List.take_left (pyUpper src) (digitsOfSeed seed)
  have hdrop : (generate_reservation_id f.name seed).drop 2 = digitsOfSeed seed := by
    rw [heq, ← hlenU]
    exact List.drop_left (pyUpper src) (digitsOfSeed seed)
  refine ⟨?_, ⟨src, htake, hlen, hsrc⟩, ?_, ?_, ?_⟩
  · rw [heq, List.length_append, hlenU]
    rfl
  · rw [hdrop]
    exact digitsOfSeed_digits seed
  · intro hletters c hc
    rw [htake] at hc
    rcases List.mem_map.1 hc with ⟨c0, hc0, rfl⟩
    rcases hsrc c0 hc0 with ⟨hcn, hcns⟩ | rfl
    · rcases hletters c0 hcn with ha | hs
      · exact upperCp_of_alpha ha
      · rw [hs] at hcns; cases hcns
    · decide
  · intro db' pend' hins
    unfold insertNew at hins
    dsimp only at hins
    split at hins
    · simp at hins
    · simp only [Prod.mk.injEq] at hins
      obtain ⟨hdb', -, -⟩ := hins
      exact ⟨_, by rw [← hdb'], rfl, hvalid⟩

/-- C7 witness: the 6-character prefix+digits shape, digit suffix, prefix
provenance and letters-case conclusion at the concrete valid input
`Jane Smith`, party size 2, seed 1234. -/
theorem reservation_code_format_witness :
    (generate_reservation_id (pyStr r"Jane Smith") 1234).length = 6 ∧
    (∃ src, (generate_reservation_id (pyStr r"Jane Smith") 1234).take 2 = pyUpper src ∧
      src.length = 2 ∧
      ∀ c ∈ src, (c ∈ pyStr r"Jane Smith" ∧ isSpaceCp c = false) ∨ c = 88) ∧
    (∀ c ∈ (generate_reservation_id (pyStr r"Jane Smith") 1234).drop 2,
      isDigitCp c = true) ∧
    ((∀ c ∈ pyStr r"Jane Smith", isAlphaCp c = true ∨ isSpaceCp c = true) →
      ∀ c ∈ (generate_reservation_id (pyStr r"Jane Smith") 1234).take 2,
        isUpperCp c = true) ∧
    (∀ db' pend', insertNew dbW none
        { name := pyStr r"Jane Smith", email := pyStr r"js@westpoint.edu", num_guests := 2 }
        (pyLower (pyStr r"js@westpoint.edu")) 1234 = (db', pend', .created) →
      ∃ nw, db'.rsvps = dbW.rsvps ++ [nw] ∧
        nw.reservation_id = generate_reservation_id (pyStr r"Jane Smith") 1234 ∧
        (nw.num_guests = 1 ∨ nw.num_guests = 2)) :=
  reservation_code_format dbW none
    { name := pyStr r"Jane Smith", email := pyStr r"js@westpoint.edu", num_guests := 2 }
    1234 (Or.inr rfl)

end DiningRSVP
